import Mathlib

set_option maxHeartbeats 1000000

/-!
Verification of the shipment normalization and grouping pipeline of
`src/app.js` (J. Charles shipment processing service).  JavaScript
values, truthiness, `||`-chains, `Number` coercion and the relevant
string operations are modeled explicitly; the pipeline functions
(`parseShippingMethod`, `buildOrderItems`, `resolveSourceId`,
`resolveShippingMethod`, `buildGroupedShipments`) and the route
validation gate of the route handler and sequential submission loop are translated
from the source, function by function.
-/

namespace JCharles

/-- Model of JavaScript numbers as used by the pipeline: NaN, the two
infinities, and finite values.  Finite values are modeled as rationals;
the guards of the pipeline only test finiteness and sign, never
floating-point rounding. -/
inductive JNum where
  | nan
  | posInf
  | negInf
  | fin (q : Rat)
deriving DecidableEq, Repr

/-- Model of a JSON-parsed JavaScript value.  `undefined` models
`undefined` (the result of reading an absent property), which
JavaScript distinguishes from `null`: `typeof null` is `"object"`
while `typeof undefined` is `"undefined"`. -/
inductive JSVal where
  | undefined
  | null
  | bool (b : Bool)
  | num (n : JNum)
  | str (s : String)
  | fn (name : String)
  | arr (xs : List JSVal)
  | obj (fields : List (String × JSVal))
deriving Repr

mutual

/-- Structural equality on modeled JavaScript values. -/
def beqVal : JSVal → JSVal → Bool
  | .undefined, .undefined => true
  | .null, .null => true
  | .bool a, .bool b => a == b
  | .num a, .num b => a == b
  | .str a, .str b => a == b
  | .fn a, .fn b => a == b
  | .arr a, .arr b => beqList a b
  | .obj a, .obj b => beqFields a b
  | _, _ => false

/-- Structural equality on lists of modeled values. -/
def beqList : List JSVal → List JSVal → Bool
  | [], [] => true
  | x :: xs, y :: ys => beqVal x y && beqList xs ys
  | _, _ => false

/-- Structural equality on field lists of modeled objects. -/
def beqFields : List (String × JSVal) → List (String × JSVal) → Bool
  | [], [] => true
  | (k1, v1) :: xs, (k2, v2) :: ys => k1 == k2 && beqVal v1 v2 && beqFields xs ys
  | _, _ => false

end

mutual

theorem beqVal_refl : ∀ a, beqVal a a = true
  | .undefined => rfl
  | .null => rfl
  | .bool b => by simp [beqVal]
  | .num n => by simp [beqVal]
  | .str s => by simp [beqVal]
  | .fn s => by simp [beqVal]
  | .arr xs => by simp only [beqVal]; exact beqList_refl xs
  | .obj fs => by simp only [beqVal]; exact beqFields_refl fs

theorem beqList_refl : ∀ l, beqList l l = true
  | [] => rfl
  | x :: xs => by
      simp only [beqList, Bool.and_eq_true]
      exact ⟨beqVal_refl x, beqList_refl xs⟩

theorem beqFields_refl : ∀ l, beqFields l l = true
  | [] => rfl
  | (k, v) :: xs => by
      simp only [beqFields, Bool.and_eq_true, beq_self_eq_true, true_and]
      exact ⟨beqVal_refl v, beqFields_refl xs⟩

end

mutual

theorem eq_of_beqVal : ∀ a b, beqVal a b = true → a = b
  | .undefined, .undefined, _ => rfl
  | .null, .null, _ => rfl
  | .bool a, .bool b, h => by simp only [beqVal, beq_iff_eq] at h; rw [h]
  | .num a, .num b, h => by simp only [beqVal, beq_iff_eq] at h; rw [h]
  | .str a, .str b, h => by simp only [beqVal, beq_iff_eq] at h; rw [h]
  | .fn a, .fn b, h => by simp only [beqVal, beq_iff_eq] at h; rw [h]
  | .arr a, .arr b, h => by
      simp only [beqVal] at h
      rw [eq_of_beqList a b h]
  | .obj a, .obj b, h => by
      simp only [beqVal] at h
      rw [eq_of_beqFields a b h]
  | .undefined, .fn _, h => by simp [beqVal] at h
  | .null, .fn _, h => by simp [beqVal] at h
  | .bool _, .fn _, h => by simp [beqVal] at h
  | .num _, .fn _, h => by simp [beqVal] at h
  | .str _, .fn _, h => by simp [beqVal] at h
  | .arr _, .fn _, h => by simp [beqVal] at h
  | .obj _, .fn _, h => by simp [beqVal] at h
  | .fn _, .undefined, h => by simp [beqVal] at h
  | .fn _, .null, h => by simp [beqVal] at h
  | .fn _, .bool _, h => by simp [beqVal] at h
  | .fn _, .num _, h => by simp [beqVal] at h
  | .fn _, .str _, h => by simp [beqVal] at h
  | .fn _, .arr _, h => by simp [beqVal] at h
  | .fn _, .obj _, h => by simp [beqVal] at h
  | .undefined, .null, h => by simp [beqVal] at h
  | .undefined, .bool _, h => by simp [beqVal] at h
  | .undefined, .num _, h => by simp [beqVal] at h
  | .undefined, .str _, h => by simp [beqVal] at h
  | .undefined, .arr _, h => by simp [beqVal] at h
  | .undefined, .obj _, h => by simp [beqVal] at h
  | .null, .undefined, h => by simp [beqVal] at h
  | .null, .bool _, h => by simp [beqVal] at h
  | .null, .num _, h => by simp [beqVal] at h
  | .null, .str _, h => by simp [beqVal] at h
  | .null, .arr _, h => by simp [beqVal] at h
  | .null, .obj _, h => by simp [beqVal] at h
  | .bool _, .undefined, h => by simp [beqVal] at h
  | .bool _, .null, h => by simp [beqVal] at h
  | .bool _, .num _, h => by simp [beqVal] at h
  | .bool _, .str _, h => by simp [beqVal] at h
  | .bool _, .arr _, h => by simp [beqVal] at h
  | .bool _, .obj _, h => by simp [beqVal] at h
  | .num _, .undefined, h => by simp [beqVal] at h
  | .num _, .null, h => by simp [beqVal] at h
  | .num _, .bool _, h => by simp [beqVal] at h
  | .num _, .str _, h => by simp [beqVal] at h
  | .num _, .arr _, h => by simp [beqVal] at h
  | .num _, .obj _, h => by simp [beqVal] at h
  | .str _, .undefined, h => by simp [beqVal] at h
  | .str _, .null, h => by simp [beqVal] at h
  | .str _, .bool _, h => by simp [beqVal] at h
  | .str _, .num _, h => by simp [beqVal] at h
  | .str _, .arr _, h => by simp [beqVal] at h
  | .str _, .obj _, h => by simp [beqVal] at h
  | .arr _, .undefined, h => by simp [beqVal] at h
  | .arr _, .null, h => by simp [beqVal] at h
  | .arr _, .bool _, h => by simp [beqVal] at h
  | .arr _, .num _, h => by simp [beqVal] at h
  | .arr _, .str _, h => by simp [beqVal] at h
  | .arr _, .obj _, h => by simp [beqVal] at h
  | .obj _, .undefined, h => by simp [beqVal] at h
  | .obj _, .null, h => by simp [beqVal] at h
  | .obj _, .bool _, h => by simp [beqVal] at h
  | .obj _, .num _, h => by simp [beqVal] at h
  | .obj _, .str _, h => by simp [beqVal] at h
  | .obj _, .arr _, h => by simp [beqVal] at h

theorem eq_of_beqList : ∀ a b, beqList a b = true → a = b
  | [], [], _ => rfl
  | x :: xs, y :: ys, h => by
      simp only [beqList, Bool.and_eq_true] at h
      rw [eq_of_beqVal x y h.1, eq_of_beqList xs ys h.2]
  | [], _ :: _, h => by simp [beqList] at h
  | _ :: _, [], h => by simp [beqList] at h

theorem eq_of_beqFields : ∀ a b, beqFields a b = true → a = b
  | [], [], _ => rfl
  | (k1, v1) :: xs, (k2, v2) :: ys, h => by
      simp only [beqFields, Bool.and_eq_true] at h
      obtain ⟨⟨hk, hv⟩, ht⟩ := h
      rw [eq_of_beqVal v1 v2 hv, eq_of_beqFields xs ys ht, beq_iff_eq.mp hk]
  | [], _ :: _, h => by simp [beqFields] at h
  | _ :: _, [], h => by simp [beqFields] at h

end

instance : DecidableEq JSVal := fun a b =>
  if h : beqVal a b = true then .isTrue (eq_of_beqVal a b h)
  else .isFalse (fun he => h (he ▸ beqVal_refl a))

/-- JavaScript truthiness: `undefined`, `null`, `false`, `NaN`, `0`
and the empty string are falsy; every other value (including every
object and array) is truthy. -/
def truthy : JSVal → Bool
  | .undefined => false
  | .null => false
  | .bool b => b
  | .num .nan => false
  | .num (.fin q) => !(decide (q = 0))
  | .num _ => true
  | .str s => !(decide (s = ""))
  | .fn _ => true
  | .arr _ => true
  | .obj _ => true

/-- JavaScript `a || b`: `a` when `a` is truthy, otherwise `b`. -/
def jsOr (a b : JSVal) : JSVal := cond (truthy a) a b

/-- Property read `v[name]`: yields the field value on objects and
`undefined` otherwise (including on arrays, none of whose indexed or
built-in properties are among the names this pipeline reads). -/
def getField (v : JSVal) (name : String) : JSVal :=
  match v with
  | .obj fields =>
    match fields.find? (fun p => p.1 == name) with
    | some p => p.2
    | none => .undefined
  | _ => .undefined

/-- Test for `typeof v === \x27object\x27`, which in JavaScript is true
for plain objects, arrays, and also `null`. -/
def jsTypeofIsObject : JSVal → Bool
  | .null => true
  | .arr _ => true
  | .obj _ => true
  | _ => false

/-- Test for `Array.isArray(v)`. -/
def jsIsArray : JSVal → Bool
  | .arr _ => true
  | _ => false

/-- Whitespace test used to model the `\s` regex class and `trim`
(ASCII inputs; the pipeline only sees ASCII field separators). -/
def isJsWs (c : Char) : Bool := c.isWhitespace

/-- Model of `String.prototype.trim`: strip leading and trailing
whitespace. -/
def jsTrim (s : String) : String :=
  String.mk (((s.toList.dropWhile isJsWs).reverse.dropWhile isJsWs).reverse)

/-- Digit run to a natural number. -/
def digitsToNat (cs : List Char) : Nat :=
  cs.foldl (fun acc c => acc * 10 + (c.toNat - 48)) 0

/-- Model of JavaScript `Number(string)` on the decimal fragment the
pipeline can meet: trims whitespace, an empty or all-whitespace string
is `0`, an optional sign followed by digits with an optional fractional
part parses as a finite value, `Infinity` is recognized, and anything
else is NaN.  (Hexadecimal and exponent forms are not modeled; no
input the theorems touch uses them.) -/
def strToNum (s : String) : JNum :=
  let cs := ((s.toList.dropWhile isJsWs).reverse.dropWhile isJsWs).reverse
  if cs = [] then .fin 0
  else
    let signedBody : Bool × List Char :=
      match cs with
      | '+' :: rest => (false, rest)
      | '-' :: rest => (true, rest)
      | rest => (false, rest)
    let isNeg := signedBody.1
    let body := signedBody.2
    if body = "Infinity".toList then
      (if isNeg then .negInf else .posInf)
    else
      let intPart := body.takeWhile Char.isDigit
      let afterInt := body.dropWhile Char.isDigit
      match afterInt with
      | [] =>
        if intPart = [] then .nan
        else if isNeg then .fin (-(digitsToNat intPart : Rat))
        else .fin (digitsToNat intPart : Rat)
      | '.' :: fracRest =>
        let fracPart := fracRest.takeWhile Char.isDigit
        let afterFrac := fracRest.dropWhile Char.isDigit
        if afterFrac = [] && !(intPart = [] && fracPart = []) then
          let value : Rat := (digitsToNat intPart : Rat)
            + (digitsToNat fracPart : Rat) / ((10 : Rat) ^ fracPart.length)
          if isNeg then .fin (-value) else .fin value
        else .nan
      | _ => .nan

/-- Rendering of a modeled number as a string.  Integral values render
exactly as JavaScript does; non-integral formatting is approximated
(no theorem depends on it). -/
def jnumToString : JNum → String
  | .nan => "NaN"
  | .posInf => "Infinity"
  | .negInf => "-Infinity"
  | .fin q => if q.den = 1 then toString q.num else toString q.num ++ "/" ++ toString q.den

mutual

/-- Model of JavaScript `String(v)`. -/
def jsToString : JSVal → String
  | .undefined => "undefined"
  | .null => "null"
  | .bool b => cond b "true" "false"
  | .num n => jnumToString n
  | .str s => s
  | .fn name => "function " ++ name ++ "() \x7b [native code] \x7d"
  | .arr xs => jsArrJoin xs
  | .obj _ => "[object Object]"

/-- Model of `Array.prototype.join(",")` as used by `String(array)`:
`null` and `undefined` elements render as empty strings. -/
def jsArrJoin : List JSVal → String
  | [] => ""
  | [.null] => ""
  | [.undefined] => ""
  | [x] => jsToString x
  | .null :: xs => "," ++ jsArrJoin xs
  | .undefined :: xs => "," ++ jsArrJoin xs
  | x :: xs => jsToString x ++ "," ++ jsArrJoin xs

end

/-- Model of JavaScript `Number(v)` for the value shapes the pipeline
feeds it (primitive coercions exact; nested-array corner cases
approximate to NaN and are not exercised by any theorem). -/
def toNumber : JSVal → JNum
  | .undefined => .nan
  | .null => .fin 0
  | .bool b => .fin (cond b 1 0)
  | .num n => n
  | .str s => strToNum s
  | .fn _ => .nan
  | .arr [] => .fin 0
  | .arr [.num n] => n
  | .arr [.str s] => strToNum s
  | .arr _ => .nan
  | .obj _ => .nan

/-- Model of `Number.isFinite`. -/
def jsNumberIsFinite : JNum → Bool
  | .fin _ => true
  | _ => false

/-- Model of the comparison `n <= 0` on JavaScript numbers (false for
NaN, true for negative infinity). -/
def jnumLeZero : JNum → Bool
  | .fin q => decide (q ≤ 0)
  | .negInf => true
  | _ => false

/-- Splitter accumulator: model of `trimmed.split(/\s+/)` on a trimmed
string, producing the maximal runs of non-whitespace characters. -/
def splitWsAux : List Char → List Char → List String
  | [], cur => if cur = [] then [] else [String.mk cur.reverse]
  | c :: rest, cur =>
    if isJsWs c then
      (if cur = [] then splitWsAux rest [] else String.mk cur.reverse :: splitWsAux rest [])
    else splitWsAux rest (c :: cur)

/-- Model of `s.split(/\s+/)` for strings without leading or trailing
whitespace (the source always splits an already-trimmed string). -/
def splitWs (s : String) : List String := splitWsAux s.toList []

/-- Model of `array.join(" ")` on string arrays. -/
def joinSpace : List String → String
  | [] => ""
  | [t] => t
  | t :: rest => t ++ " " ++ joinSpace rest

/-- Model of `String.prototype.toUpperCase` (ASCII). -/
def upperStr (s : String) : String := String.mk (s.toList.map Char.toUpper)

/-- JavaScript `s || null` for a string-valued `s`: the string when
non-empty, `null` otherwise. -/
def jsStrOrNull (s : String) : JSVal := if s = "" then .null else .str s

/-- The shipment method mapping table of src/app.js lines 57-65, used
to normalize shipping method labels. -/
def shipmentMethodMapping : List (String × String) :=
  [("GRND", "Ground"),
   ("RES", "Residential"),
   ("3DAY", "3-Day Select"),
   ("2DAY", "2-Day Air"),
   ("1DAY", "Next Day Air"),
   ("STD", "Standard"),
   ("EXP", "Express")]

/-- Own-property lookup in a literal-object table. -/
def tableLookup (k : String) : List (String × String) → Option String
  | [] => none
  | (key, v) :: rest => if k = key then some v else tableLookup k rest

/-- The members every plain object literal inherits from
`Object.prototype` in Node.  `shipmentMethodMapping` is an object
literal, so a bracket lookup with a user-controlled key that misses
every own property still reaches these: each is truthy — a native
function, except `__proto__`, which yields `Object.prototype` itself
(modeled as an opaque object). -/
def objectProtoMembers : List (String × JSVal) :=
  [("constructor", .fn "Object"),
   ("toString", .fn "toString"),
   ("toLocaleString", .fn "toLocaleString"),
   ("valueOf", .fn "valueOf"),
   ("hasOwnProperty", .fn "hasOwnProperty"),
   ("isPrototypeOf", .fn "isPrototypeOf"),
   ("propertyIsEnumerable", .fn "propertyIsEnumerable"),
   ("__defineGetter__", .fn "__defineGetter__"),
   ("__defineSetter__", .fn "__defineSetter__"),
   ("__lookupGetter__", .fn "__lookupGetter__"),
   ("__lookupSetter__", .fn "__lookupSetter__"),
   ("__proto__", .obj [])]

/-- The inherited member a plain object exposes under `k`, when `k`
names an `Object.prototype` member. -/
def protoGet (k : String) : Option JSVal :=
  (objectProtoMembers.find? (fun p => p.1 == k)).map (fun p => p.2)

/-- Bracket lookup `table[k]` on the object-literal mapping: the own
property when present, else the member inherited from
`Object.prototype`, else `undefined`. -/
def tableGet (k : String) (table : List (String × String)) : JSVal :=
  match tableLookup k table with
  | some v => .str v
  | none =>
    match protoGet k with
    | some m => m
    | none => .undefined

/-- Lines 81-84: `shipmentMethodMapping[rawMethod] ||
shipmentMethodMapping[normalizedCode] || rawMethod` — a case-sensitive
bracket lookup, then a bracket lookup of the uppercased label, then
pass-through of the raw label.  Each bracket lookup consults the
prototype chain, so a label naming an `Object.prototype` member
produces that truthy inherited member rather than falling through. -/
def normalizeMethod (rawMethod : String) : JSVal :=
  jsOr (tableGet rawMethod shipmentMethodMapping)
    (jsOr (tableGet (upperStr rawMethod) shipmentMethodMapping) (.str rawMethod))

/-- Result shape of `parseShippingMethod`: each field is a string or
`null`. -/
structure ParsedShippingMethod where
  carrier_code : JSVal
  shipment_method : JSVal
deriving DecidableEq, Repr

/-- Lines 68-90: `parseShippingMethod(methodSource)`.  Falsy or
whitespace-only input yields `{null, null}`; otherwise the trimmed
input is split on whitespace runs, the first token becomes the carrier
code when at least two tokens exist (`parts.shift()`), the remaining
tokens joined by single spaces are normalized through the mapping
table, and each result is replaced by `null` when empty (`x || null`).
Total by construction: it cannot throw. -/
def parseShippingMethod (methodSource : JSVal) : ParsedShippingMethod :=
  if truthy methodSource = false then ⟨.null, .null⟩
  else if jsTrim (jsToString methodSource) = "" then ⟨.null, .null⟩
  else
    match splitWs (jsTrim (jsToString methodSource)) with
    | p0 :: p1 :: prest =>
      ⟨jsStrOrNull p0, jsOr (normalizeMethod (joinSpace (p1 :: prest))) .null⟩
    | parts => ⟨.null, jsOr (normalizeMethod (joinSpace parts)) .null⟩

/-- A normalized line item `{ id, quantity }` as pushed by
`buildOrderItems` (both fields are JavaScript numbers that passed the
finite-and-positive guard). -/
structure OrderItem where
  id : JNum
  quantity : JNum
deriving DecidableEq, Repr

/-- Lines 105-111: identifier alias chain of an `order_items` element,
first truthy among the aliases (falling back to the literal `0`),
coerced with `Number`. -/
def itemIdNum (item : JSVal) : JNum :=
  toNumber (jsOr (getField item "order_items_brightstores_line_item_id")
    (jsOr (getField item "order_items_id")
      (jsOr (getField item "id")
        (jsOr (getField item "brightstores_line_item_id") (.num (.fin 0))))))

/-- Line 112: quantity alias chain of an `order_items` element. -/
def itemQuantityNum (item : JSVal) : JNum :=
  toNumber (jsOr (getField item "quantity")
    (jsOr (getField item "qty")
      (jsOr (getField item "shipment_quantity") (.num (.fin 0)))))

/-- Lines 100-118: mapping of one `order_items` element; `null` (here
`none`) for non-object elements and for elements whose identifier or
quantity fails the finite-and-strictly-positive guard.  The chain
`.map(...).filter(Boolean)` keeps exactly the non-null results. -/
def mapOrderItem (item : JSVal) : Option OrderItem :=
  if (!truthy item || !jsTypeofIsObject item) then none
  else
    let id := itemIdNum item
    let quantity := itemQuantityNum item
    if !jsNumberIsFinite id || jnumLeZero id
        || !jsNumberIsFinite quantity || jnumLeZero quantity then none
    else some ⟨id, quantity⟩

/-- Lines 122-129: identifier alias chain of a legacy flat attachment. -/
def flatIdNum (attachment : JSVal) : JNum :=
  toNumber (jsOr (getField attachment "order_items_brightstores_line_item_id")
    (jsOr (getField attachment "order_items_id")
      (jsOr (getField attachment "brightstores_line_item_id")
        (jsOr (getField attachment "order_item_id")
          (jsOr (getField attachment "line_item_id") (.num (.fin 0)))))))

/-- Line 130: quantity alias chain of a legacy flat attachment. -/
def flatQuantityNum (attachment : JSVal) : JNum :=
  toNumber (jsOr (getField attachment "shipment_quantity")
    (jsOr (getField attachment "quantity") (.num (.fin 0))))

/-- Lines 93-136: `buildOrderItems(attachment)`.  Non-object input
yields `[]`; an `order_items` array is mapped element-wise with
invalid elements dropped; otherwise the attachment itself is treated
as a single flat item, yielding a singleton or empty list.  Total by
construction: it cannot throw and always returns a list. -/
def buildOrderItems (attachment : JSVal) : List OrderItem :=
  if (!truthy attachment || !jsTypeofIsObject attachment) then []
  else
    match getField attachment "order_items" with
    | .arr items => items.filterMap mapOrderItem
    | _ =>
      let id := flatIdNum attachment
      let quantity := flatQuantityNum attachment
      if !jsNumberIsFinite id || jnumLeZero id
          || !jsNumberIsFinite quantity || jnumLeZero quantity then []
      else [⟨id, quantity⟩]

/-- Lines 138-147: `resolveSourceId(attachment)` — the first truthy
value among three aliased fields, else `null`. -/
def resolveSourceId (attachment : JSVal) : JSVal :=
  if (!truthy attachment || !jsTypeofIsObject attachment) then .null
  else
    jsOr (getField attachment "brightstores_order_id")
      (jsOr (getField attachment "jcharles_order_number")
        (jsOr (getField attachment "customer_po") .null))

/-- Lines 149-158: `resolveShippingMethod(attachment)` — first truthy
of two aliased source fields, delegated to `parseShippingMethod`. -/
def resolveShippingMethod (attachment : JSVal) : ParsedShippingMethod :=
  if (!truthy attachment || !jsTypeofIsObject attachment) then ⟨.null, .null⟩
  else
    parseShippingMethod (jsOr (getField attachment "brightstores_shipping_method")
      (jsOr (getField attachment "ship_via_description") .null))

/-- The canonical shipment record built by `buildGroupedShipments`
(lines 173-178). -/
@[ext]
structure ShipmentRecord where
  tracking_number : JSVal
  source_id : JSVal
  carrier_code : JSVal
  shipment_method : JSVal
  order_items : List OrderItem
deriving DecidableEq, Repr

/-- Lines 163-171: the per-attachment admission test of the grouping
fold — skip non-truthy or non-object attachments, normalize the
tracking number with `|| null`, and skip when it is falsy.  Returns
the grouping key when the attachment is admitted. -/
def trackingKey (a : JSVal) : Option JSVal :=
  if truthy a = false then none
  else if jsTypeofIsObject a = false then none
  else
    let tn := jsOr (getField a "tracking_number") .null
    if truthy tn then some tn else none

/-- Lines 173-178: the fresh record created for a new tracking key. -/
def freshEntry (tn : JSVal) (attachment : JSVal) : ShipmentRecord :=
  { tracking_number := tn
    source_id := resolveSourceId attachment
    carrier_code := (resolveShippingMethod attachment).carrier_code
    shipment_method := (resolveShippingMethod attachment).shipment_method
    order_items := [] }

/-- Lines 180-182: `if (!entry.source_id) entry.source_id =
resolveSourceId(attachment)`. -/
def backfillSource (entry : ShipmentRecord) (attachment : JSVal) : ShipmentRecord :=
  if truthy entry.source_id = false then
    { entry with source_id := resolveSourceId attachment }
  else entry

/-- Lines 184-188: when either method field is falsy, set each to
`entry.x || method.x`. -/
def backfillMethod (entry : ShipmentRecord) (attachment : JSVal) : ShipmentRecord :=
  if truthy entry.carrier_code = false || truthy entry.shipment_method = false then
    { entry with
      carrier_code := jsOr entry.carrier_code (resolveShippingMethod attachment).carrier_code
      shipment_method := jsOr entry.shipment_method (resolveShippingMethod attachment).shipment_method }
  else entry

/-- Lines 180-190: the mutations applied to the (fresh or retrieved)
entry — backfill `source_id` when falsy, backfill the method fields,
and append the line items of the attachment. -/
def updateEntry (entry : ShipmentRecord) (attachment : JSVal) : ShipmentRecord :=
  let e2 := backfillMethod (backfillSource entry attachment) attachment
  { e2 with order_items := e2.order_items ++ buildOrderItems attachment }

/-- Lookup in the insertion-ordered association list modeling the
`Map` keyed by tracking number (`grouped.get`). -/
def lookupEntry : List (JSVal × ShipmentRecord) → JSVal → Option ShipmentRecord
  | [], _ => none
  | (k1, r) :: rest, k => if k1 = k then some r else lookupEntry rest k

/-- `grouped.set(k, r)`: replace the value of an existing key in
place, otherwise append at the end (a JavaScript `Map` preserves
insertion order and updating an existing key keeps its position). -/
def setEntry : List (JSVal × ShipmentRecord) → JSVal → ShipmentRecord → List (JSVal × ShipmentRecord)
  | [], k, r => [(k, r)]
  | (k1, r1) :: rest, k, r =>
    if k1 = k then (k, r) :: rest else (k1, r1) :: setEntry rest k r

/-- Lines 163-192: the body of the `attachments.forEach` fold — one
attachment folded into the grouping map. -/
def groupStep (grouped : List (JSVal × ShipmentRecord)) (attachment : JSVal) :
    List (JSVal × ShipmentRecord) :=
  match trackingKey attachment with
  | none => grouped
  | some tn =>
    let entry := (lookupEntry grouped tn).getD (freshEntry tn attachment)
    setEntry grouped tn (updateEntry entry attachment)

/-- Lines 160-195: `buildGroupedShipments(attachments)` — fold the
attachments into the insertion-ordered map and return its values in
first-seen key order (`Array.from(grouped.values())`). -/
def buildGroupedShipments (attachments : List JSVal) : List ShipmentRecord :=
  (attachments.foldl groupStep []).map Prod.snd

/-- Structured details attached to an upstream submission failure
(lines 244-248).  `serverResponse` keeps the upstream body as raw
text; the attempt of the source to re-parse it as JSON only changes the
shape of the logged details, which no claim inspects. -/
structure ErrorDetails where
  status : String
  requestBody : ShipmentRecord
  serverResponse : String
deriving DecidableEq, Repr

/-- The error shape produced by `createError` (lines 26-33):
`statusCode` is `none` for errors thrown without one (for example a
network failure of `fetch`), letting the error middleware default to
500. -/
structure AppError where
  message : String
  statusCode : Option Nat
  details : Option ErrorDetails
deriving DecidableEq, Repr

instance {ε α : Type} [DecidableEq ε] [DecidableEq α] : DecidableEq (Except ε α) := fun a b =>
  match a, b with
  | .error e1, .error e2 =>
    if h : e1 = e2 then .isTrue (by rw [h]) else .isFalse (by intro hc; cases hc; exact h rfl)
  | .ok v1, .ok v2 =>
    if h : v1 = v2 then .isTrue (by rw [h]) else .isFalse (by intro hc; cases hc; exact h rfl)
  | .error _, .ok _ => .isFalse (by intro hc; cases hc)
  | .ok _, .error _ => .isFalse (by intro hc; cases hc)

/-- The message thrown at line 203. -/
def invalidInputMessage : String :=
  "Invalid input: \x27mail_attachments\x27 must be an object or array."

/-- The message thrown at line 212. -/
def missingTrackingMessage : String :=
  "Invalid attachment: Missing \x27tracking_number\x27."

/-- The 400 error thrown when `mail_attachments` fails the `typeof`
gate (lines 202-204). -/
def invalidInputError : AppError := ⟨invalidInputMessage, some 400, none⟩

/-- The 400 error thrown when grouping yields no shipment (lines
211-213). -/
def missingTrackingError : AppError := ⟨missingTrackingMessage, some 400, none⟩

/-- Lines 206-208: a `mail_attachments` array is used as is, any other
value is wrapped in a one-element list. -/
def toAttachmentList (v : JSVal) : List JSVal :=
  match v with
  | .arr xs => xs
  | _ => [v]

/-- Lines 200-213: the validation gate of the route handler — reject
when the body is falsy or `typeof data.mail_attachments` is not
`"object"` (note `typeof null` is `"object"`), then group and reject
when no shipment was produced; otherwise hand the grouped shipments
to the submission loop. -/
def processGate (data : JSVal) : Except AppError (List ShipmentRecord) :=
  if (!truthy data || !jsTypeofIsObject (getField data "mail_attachments")) then
    .error invalidInputError
  else if (buildGroupedShipments (toAttachmentList (getField data "mail_attachments"))).length = 0 then
    .error missingTrackingError
  else .ok (buildGroupedShipments (toAttachmentList (getField data "mail_attachments")))

/-- Outcome of one outbound `fetch` per shipment: a 2xx response with
a JSON body, a non-2xx response with status line and body text, or a
rejected promise (transport failure) carrying an error message. -/
inductive FetchOutcome where
  | ok (body : JSVal)
  | httpErr (status : Nat) (statusText : String) (bodyText : String)
  | netErr (msg : String)
deriving DecidableEq, Repr

/-- Lines 215-259: the sequential submission loop.  Shipments are
submitted one at a time in list order; a 2xx response appends
`{tracking_number, response}` to the accumulated responses; a non-2xx
response throws the 400 "Failed to submit shipment" error carrying the
status line, the request body and the upstream response; a transport
failure propagates as an error without a `statusCode`.  The function
also returns the list of shipments actually submitted, so fail-fast
behavior is visible: shipments after the failing one are never
reached. -/
def submitShipments (oracle : ShipmentRecord → FetchOutcome) :
    List ShipmentRecord → List (JSVal × JSVal) →
    List ShipmentRecord × Except AppError (List (JSVal × JSVal))
  | [], responses => ([], .ok responses)
  | s :: rest, responses =>
    match oracle s with
    | .ok body =>
      let r := submitShipments oracle rest (responses ++ [(s.tracking_number, body)])
      (s :: r.1, r.2)
    | .httpErr status statusText bodyText =>
      ([s], .error ⟨"Failed to submit shipment", some 400,
        some ⟨toString status ++ " " ++ statusText, s, bodyText⟩⟩)
    | .netErr msg => ([s], .error ⟨msg, none, none⟩)

/-- The JSON response the service sends. -/
structure HttpResult where
  status : Nat
  success : Bool
  message : Option String
  responses : Option (List (JSVal × JSVal))
  request_id : String
  details : Option ErrorDetails
deriving DecidableEq, Repr

/-- Lines 275-291: the centralized error middleware — status from the
`statusCode` of the error or 500, `success: false`, the message of the error or
a generic one, no `responses` field, and the details of the error. -/
def errorResponse (request_id : String) (e : AppError) : HttpResult :=
  { status := e.statusCode.getD 500
    success := false
    message := some (if e.message = "" then "An unexpected error occurred" else e.message)
    responses := none
    request_id := request_id
    details := e.details }

/-- Line 265: the success payload `{ success: true, responses,
request_id }` (HTTP 200). -/
def successResponse (request_id : String) (responses : List (JSVal × JSVal)) : HttpResult :=
  { status := 200
    success := true
    message := none
    responses := some responses
    request_id := request_id
    details := none }

/-- Lines 198-291: the route handler composed with the error
middleware — validation gate, then the sequential submission loop,
then either the success payload or the serialized error. -/
def handleRequest (oracle : ShipmentRecord → FetchOutcome) (request_id : String)
    (data : JSVal) : HttpResult :=
  match processGate data with
  | .error e => errorResponse request_id e
  | .ok shipments =>
    match (submitShipments oracle shipments []).2 with
    | .error e => errorResponse request_id e
    | .ok responses => successResponse request_id responses

/-! Specification-side vocabulary: the grouped records are
characterized per tracking key by a fold over the attachments of that
group of that key. -/

/-- The record state before any attachment contributed to a key. -/
def emptyRec (k : JSVal) : ShipmentRecord := ⟨k, .null, .null, .null, []⟩

/-- First truthy value of a list, else `null` — the semantics of an
`||`-chain over per-attachment resolved values. -/
def firstTruthy (l : List JSVal) : JSVal := l.foldl jsOr .null

/-- One step of first-seen deduplication. -/
def dedupStep (acc : List JSVal) (k : JSVal) : List JSVal :=
  if k ∈ acc then acc else acc ++ [k]

/-- First-seen deduplication: the distinct elements of `l` in order of
first occurrence. -/
def firstSeenDedup (l : List JSVal) : List JSVal := l.foldl dedupStep []

/-- The tracking keys admitted by the grouping fold, deduplicated in
first-seen order. -/
def firstSeenKeys (atts : List JSVal) : List JSVal :=
  firstSeenDedup (atts.filterMap trackingKey)

/-- The attachments grouped under one tracking key, in input order. -/
def groupAtts (atts : List JSVal) (k : JSVal) : List JSVal :=
  atts.filter (fun a => decide (trackingKey a = some k))

/-- The record the group of a key folds to. -/
def groupRec (atts : List JSVal) (k : JSVal) : ShipmentRecord :=
  (groupAtts atts k).foldl updateEntry (emptyRec k)

/-- Concatenation of the images of a list-valued function. -/
def concatMap {α β : Type} (f : α → List β) : List α → List β
  | [] => []
  | a :: t => f a ++ concatMap f t

theorem concatMap_nil {α β : Type} (f : α → List β) : concatMap f [] = [] := rfl

theorem concatMap_cons {α β : Type} (f : α → List β) (a : α) (t : List α) :
    concatMap f (a :: t) = f a ++ concatMap f t := rfl

theorem jsOr_of_truthy {a : JSVal} (b : JSVal) (h : truthy a = true) : jsOr a b = a := by
  simp [jsOr, h]

theorem jsOr_of_falsy {a : JSVal} (b : JSVal) (h : truthy a = false) : jsOr a b = b := by
  simp [jsOr, h]

theorem jsOr_null_left (b : JSVal) : jsOr .null b = b := rfl

theorem jsOr_self (a : JSVal) : jsOr a a = a := by
  unfold jsOr; cases truthy a <;> rfl

theorem backfillSource_tracking (e : ShipmentRecord) (a : JSVal) :
    (backfillSource e a).tracking_number = e.tracking_number := by
  unfold backfillSource; split_ifs <;> rfl

theorem backfillSource_source (e : ShipmentRecord) (a : JSVal) :
    (backfillSource e a).source_id = jsOr e.source_id (resolveSourceId a) := by
  unfold backfillSource jsOr
  cases h : truthy e.source_id <;> simp [h]

theorem backfillSource_carrier (e : ShipmentRecord) (a : JSVal) :
    (backfillSource e a).carrier_code = e.carrier_code := by
  unfold backfillSource; split_ifs <;> rfl

theorem backfillSource_method (e : ShipmentRecord) (a : JSVal) :
    (backfillSource e a).shipment_method = e.shipment_method := by
  unfold backfillSource; split_ifs <;> rfl

theorem backfillSource_items (e : ShipmentRecord) (a : JSVal) :
    (backfillSource e a).order_items = e.order_items := by
  unfold backfillSource; split_ifs <;> rfl

theorem backfillMethod_tracking (e : ShipmentRecord) (a : JSVal) :
    (backfillMethod e a).tracking_number = e.tracking_number := by
  unfold backfillMethod; split_ifs <;> rfl

theorem backfillMethod_source (e : ShipmentRecord) (a : JSVal) :
    (backfillMethod e a).source_id = e.source_id := by
  unfold backfillMethod; split_ifs <;> rfl

theorem backfillMethod_carrier (e : ShipmentRecord) (a : JSVal) :
    (backfillMethod e a).carrier_code = jsOr e.carrier_code (resolveShippingMethod a).carrier_code := by
  unfold backfillMethod
  split_ifs with h
  · rfl
  · rw [jsOr_of_truthy]
    revert h
    cases truthy e.carrier_code <;> cases truthy e.shipment_method <;> simp

theorem backfillMethod_method (e : ShipmentRecord) (a : JSVal) :
    (backfillMethod e a).shipment_method = jsOr e.shipment_method (resolveShippingMethod a).shipment_method := by
  unfold backfillMethod
  split_ifs with h
  · rfl
  · rw [jsOr_of_truthy]
    revert h
    cases truthy e.carrier_code <;> cases truthy e.shipment_method <;> simp

theorem backfillMethod_items (e : ShipmentRecord) (a : JSVal) :
    (backfillMethod e a).order_items = e.order_items := by
  unfold backfillMethod; split_ifs <;> rfl

theorem updateEntry_tracking (e : ShipmentRecord) (a : JSVal) :
    (updateEntry e a).tracking_number = e.tracking_number := by
  unfold updateEntry
  simp only [backfillMethod_tracking, backfillSource_tracking]

theorem updateEntry_source (e : ShipmentRecord) (a : JSVal) :
    (updateEntry e a).source_id = jsOr e.source_id (resolveSourceId a) := by
  unfold updateEntry
  simp only [backfillMethod_source, backfillSource_source]

theorem updateEntry_carrier (e : ShipmentRecord) (a : JSVal) :
    (updateEntry e a).carrier_code = jsOr e.carrier_code (resolveShippingMethod a).carrier_code := by
  unfold updateEntry
  simp only [backfillMethod_carrier, backfillSource_carrier]

theorem updateEntry_method (e : ShipmentRecord) (a : JSVal) :
    (updateEntry e a).shipment_method = jsOr e.shipment_method (resolveShippingMethod a).shipment_method := by
  unfold updateEntry
  simp only [backfillMethod_items, backfillMethod_method, backfillSource_method]

theorem updateEntry_items (e : ShipmentRecord) (a : JSVal) :
    (updateEntry e a).order_items = e.order_items ++ buildOrderItems a := by
  unfold updateEntry
  simp only [backfillMethod_items, backfillSource_items]

theorem foldUpdate_tracking (l : List JSVal) (e : ShipmentRecord) :
    (l.foldl updateEntry e).tracking_number = e.tracking_number := by
  induction l generalizing e with
  | nil => rfl
  | cons a t ih => rw [List.foldl_cons, ih, updateEntry_tracking]

theorem foldUpdate_source (l : List JSVal) (e : ShipmentRecord) :
    (l.foldl updateEntry e).source_id = (l.map resolveSourceId).foldl jsOr e.source_id := by
  induction l generalizing e with
  | nil => rfl
  | cons a t ih =>
    rw [List.foldl_cons, ih, updateEntry_source, List.map_cons, List.foldl_cons]

theorem foldUpdate_carrier (l : List JSVal) (e : ShipmentRecord) :
    (l.foldl updateEntry e).carrier_code
      = (l.map (fun a => (resolveShippingMethod a).carrier_code)).foldl jsOr e.carrier_code := by
  induction l generalizing e with
  | nil => rfl
  | cons a t ih =>
    rw [List.foldl_cons, ih, updateEntry_carrier, List.map_cons, List.foldl_cons]

theorem foldUpdate_method (l : List JSVal) (e : ShipmentRecord) :
    (l.foldl updateEntry e).shipment_method
      = (l.map (fun a => (resolveShippingMethod a).shipment_method)).foldl jsOr e.shipment_method := by
  induction l generalizing e with
  | nil => rfl
  | cons a t ih =>
    rw [List.foldl_cons, ih, updateEntry_method, List.map_cons, List.foldl_cons]

theorem foldUpdate_items (l : List JSVal) (e : ShipmentRecord) :
    (l.foldl updateEntry e).order_items = e.order_items ++ concatMap buildOrderItems l := by
  induction l generalizing e with
  | nil => rw [List.foldl_nil, concatMap_nil, List.append_nil]
  | cons a t ih =>
    rw [List.foldl_cons, ih, updateEntry_items, concatMap_cons, List.append_assoc]

theorem updateEntry_fresh (k a : JSVal) :
    updateEntry (freshEntry k a) a = updateEntry (emptyRec k) a := by
  apply ShipmentRecord.ext <;>
    simp [updateEntry_tracking, updateEntry_source, updateEntry_carrier,
      updateEntry_method, updateEntry_items, freshEntry, emptyRec, jsOr_self, jsOr_null_left]

theorem mem_foldl_dedupStep (l : List JSVal) : ∀ (acc : List JSVal) (x : JSVal),
    x ∈ l.foldl dedupStep acc ↔ x ∈ acc ∨ x ∈ l := by
  induction l with
  | nil => intro acc x; simp
  | cons a t ih =>
    intro acc x
    rw [List.foldl_cons, ih]
    unfold dedupStep
    split_ifs with h
    · simp only [List.mem_cons]
      constructor
      · rintro (hx | hx)
        · exact Or.inl hx
        · exact Or.inr (Or.inr hx)
      · rintro (hx | rfl | hx)
        · exact Or.inl hx
        · exact Or.inl h
        · exact Or.inr hx
    · simp only [List.mem_append, List.mem_singleton, List.mem_cons]
      tauto

theorem nodup_foldl_dedupStep (l : List JSVal) : ∀ acc : List JSVal,
    acc.Nodup → (l.foldl dedupStep acc).Nodup := by
  induction l with
  | nil => intro acc h; simpa using h
  | cons a t ih =>
    intro acc h
    rw [List.foldl_cons]
    apply ih
    unfold dedupStep
    split_ifs with hmem
    · exact h
    · rw [List.nodup_append]
      refine ⟨h, List.nodup_singleton a, ?_⟩
      intro x hx hx2
      rw [List.mem_singleton] at hx2
      exact hmem (hx2 ▸ hx)

theorem mem_firstSeenKeys (atts : List JSVal) (k : JSVal) :
    k ∈ firstSeenKeys atts ↔ ∃ a ∈ atts, trackingKey a = some k := by
  unfold firstSeenKeys firstSeenDedup
  rw [mem_foldl_dedupStep]
  simp [List.mem_filterMap]

theorem nodup_firstSeenKeys (atts : List JSVal) : (firstSeenKeys atts).Nodup :=
  nodup_foldl_dedupStep _ [] List.nodup_nil

theorem lookupEntry_map (ks : List JSVal) (f : JSVal → ShipmentRecord) (k : JSVal) :
    lookupEntry (ks.map (fun x => (x, f x))) k = if k ∈ ks then some (f k) else none := by
  induction ks with
  | nil => simp [lookupEntry]
  | cons a t ih =>
    rw [List.map_cons]
    unfold lookupEntry
    by_cases h : a = k
    · subst h
      simp
    · rw [if_neg h, ih]
      by_cases hk : k ∈ t
      · rw [if_pos hk, if_pos (List.mem_cons_of_mem a hk)]
      · rw [if_neg hk, if_neg (by simp [List.mem_cons, Ne.symm h, hk])]

theorem setEntry_of_not_mem (g : List (JSVal × ShipmentRecord)) (k : JSVal) (r : ShipmentRecord) :
    (∀ p ∈ g, p.1 ≠ k) → setEntry g k r = g ++ [(k, r)] := by
  induction g with
  | nil => intro _; rfl
  | cons p rest ih =>
    intro h
    obtain ⟨k1, r1⟩ := p
    unfold setEntry
    rw [if_neg (h (k1, r1) (List.mem_cons_self _ _)),
      ih (fun q hq => h q (List.mem_cons_of_mem _ hq))]
    rfl

theorem setEntry_map_of_mem (ks : List JSVal) (f : JSVal → ShipmentRecord) (k : JSVal)
    (v : ShipmentRecord) : ks.Nodup → k ∈ ks →
    setEntry (ks.map (fun x => (x, f x))) k v
      = ks.map (fun x => (x, if x = k then v else f x)) := by
  induction ks with
  | nil => intro _ hmem; cases hmem
  | cons a t ih =>
    intro hnd hmem
    rw [List.map_cons, List.map_cons]
    unfold setEntry
    by_cases h : a = k
    · subst h
      rw [if_pos rfl, if_pos rfl]
      congr 1
      apply List.map_congr_left
      intro x hx
      rw [if_neg (show ¬(x = a) from fun hxa => (List.nodup_cons.mp hnd).1 (hxa ▸ hx))]
    · rw [if_neg h, if_neg h]
      congr 1
      exact ih (List.nodup_cons.mp hnd).2
        (by rcases List.mem_cons.mp hmem with h1 | h1; exact absurd h1.symm h; exact h1)

theorem groupAtts_append_one (atts : List JSVal) (a : JSVal) (k : JSVal) :
    groupAtts (atts ++ [a]) k
      = groupAtts atts k ++ (if trackingKey a = some k then [a] else []) := by
  unfold groupAtts
  rw [List.filter_append]
  congr 1
  by_cases h : trackingKey a = some k <;> simp [h]

theorem groupRec_append_one (atts : List JSVal) (a k : JSVal) :
    groupRec (atts ++ [a]) k
      = if trackingKey a = some k then updateEntry (groupRec atts k) a else groupRec atts k := by
  unfold groupRec
  rw [groupAtts_append_one]
  split_ifs with h
  · rw [List.foldl_append]; rfl
  · rw [List.append_nil]

theorem firstSeenKeys_append_one (atts : List JSVal) (a : JSVal) :
    firstSeenKeys (atts ++ [a])
      = (match trackingKey a with
          | none => firstSeenKeys atts
          | some k => dedupStep (firstSeenKeys atts) k) := by
  unfold firstSeenKeys firstSeenDedup
  rw [List.filterMap_append]
  cases h : trackingKey a
  · simp [List.filterMap, h]
  · simp [List.filterMap, h, List.foldl_append]

theorem groupAtts_eq_nil (atts : List JSVal) (k : JSVal)
    (h : ∀ a ∈ atts, trackingKey a ≠ some k) : groupAtts atts k = [] := by
  unfold groupAtts
  rw [List.filter_eq_nil_iff]
  intro a ha
  simp [h a ha]

theorem buildAssoc_spec (atts : List JSVal) :
    atts.foldl groupStep [] = (firstSeenKeys atts).map (fun k => (k, groupRec atts k)) := by
  induction atts using List.reverseRecOn with
  | nil => rfl
  | append_singleton atts a ih =>
    rw [List.foldl_append, List.foldl_cons, List.foldl_nil, ih, firstSeenKeys_append_one]
    unfold groupStep
    cases h : trackingKey a with
    | none =>
      dsimp only
      apply List.map_congr_left
      intro k hk
      rw [groupRec_append_one, if_neg (by simp [h])]
    | some k =>
      dsimp only
      rw [lookupEntry_map (firstSeenKeys atts) (fun x => groupRec atts x) k]
      by_cases hmem : k ∈ firstSeenKeys atts
      · rw [if_pos hmem]
        rw [Option.getD_some]
        rw [setEntry_map_of_mem _ _ _ _ (nodup_firstSeenKeys atts) hmem]
        unfold dedupStep
        rw [if_pos hmem]
        apply List.map_congr_left
        intro x hx
        by_cases hxk : x = k
        · subst hxk
          rw [if_pos rfl, groupRec_append_one, if_pos h]
        · rw [if_neg hxk, groupRec_append_one, if_neg (by simp [h, Ne.symm hxk])]
      · rw [if_neg hmem, Option.getD_none]
        rw [setEntry_of_not_mem _ _ _ (by
          intro p hp
          rcases List.mem_map.mp hp with ⟨x, hx, rfl⟩
          intro hc
          exact hmem (hc ▸ hx))]
        unfold dedupStep
        rw [if_neg hmem, List.map_append]
        congr 1
        · apply List.map_congr_left
          intro x hx
          rw [groupRec_append_one,
            if_neg (by simp [h]; intro hc; exact absurd (hc ▸ hx) hmem)]
        · rw [List.map_singleton, updateEntry_fresh]
          have hnil : groupAtts atts k = [] := by
            apply groupAtts_eq_nil
            intro a2 ha2 hc
            exact hmem ((mem_firstSeenKeys atts k).mpr ⟨a2, ha2, hc⟩)
          rw [groupRec_append_one, if_pos h]
          unfold groupRec
          rw [hnil, List.foldl_nil]

theorem buildGroupedShipments_eq (atts : List JSVal) :
    buildGroupedShipments atts = (firstSeenKeys atts).map (fun k => groupRec atts k) := by
  unfold buildGroupedShipments
  rw [buildAssoc_spec, List.map_map]
  rfl

theorem groupRec_tracking (atts : List JSVal) (k : JSVal) :
    (groupRec atts k).tracking_number = k := by
  unfold groupRec
  rw [foldUpdate_tracking]
  rfl

theorem groupRec_source (atts : List JSVal) (k : JSVal) :
    (groupRec atts k).source_id = firstTruthy ((groupAtts atts k).map resolveSourceId) := by
  unfold groupRec firstTruthy
  rw [foldUpdate_source]
  rfl

theorem groupRec_carrier (atts : List JSVal) (k : JSVal) :
    (groupRec atts k).carrier_code
      = firstTruthy ((groupAtts atts k).map (fun a => (resolveShippingMethod a).carrier_code)) := by
  unfold groupRec firstTruthy
  rw [foldUpdate_carrier]
  rfl

theorem groupRec_method (atts : List JSVal) (k : JSVal) :
    (groupRec atts k).shipment_method
      = firstTruthy ((groupAtts atts k).map (fun a => (resolveShippingMethod a).shipment_method)) := by
  unfold groupRec firstTruthy
  rw [foldUpdate_method]
  rfl

theorem groupRec_items (atts : List JSVal) (k : JSVal) :
    (groupRec atts k).order_items = concatMap buildOrderItems (groupAtts atts k) := by
  unfold groupRec
  rw [foldUpdate_items]
  rfl

theorem concatMap_length {α β : Type} (f : α → List β) (l : List α) :
    (concatMap f l).length = (l.map (fun a => (f a).length)).sum := by
  induction l with
  | nil => rfl
  | cons a t ih =>
    rw [concatMap_cons, List.length_append, ih, List.map_cons, List.sum_cons]

theorem length_filterMap_countP {α β : Type} (f : α → Option β) (l : List α) :
    (l.filterMap f).length = l.countP (fun a => (f a).isSome) := by
  induction l with
  | nil => rfl
  | cons a t ih =>
    rw [List.filterMap_cons, List.countP_cons]
    cases h : f a
    · simp [h, ih]
    · simp [h, ih]

theorem mapOrderItem_isSome (item : JSVal) :
    (mapOrderItem item).isSome
      = (truthy item && jsTypeofIsObject item
        && (jsNumberIsFinite (itemIdNum item) && !jnumLeZero (itemIdNum item))
        && (jsNumberIsFinite (itemQuantityNum item) && !jnumLeZero (itemQuantityNum item))) := by
  cases h1 : truthy item <;> cases h2 : jsTypeofIsObject item <;>
    cases h3 : jsNumberIsFinite (itemIdNum item) <;> cases h4 : jnumLeZero (itemIdNum item) <;>
    cases h5 : jsNumberIsFinite (itemQuantityNum item) <;>
    cases h6 : jnumLeZero (itemQuantityNum item) <;>
    simp [mapOrderItem, h1, h2, h3, h4, h5, h6]

theorem mem_splitWsAux_ne_empty : ∀ (cs cur : List Char) (t : String),
    t ∈ splitWsAux cs cur → t = "" → False := by
  intro cs
  induction cs with
  | nil =>
    intro cur t ht he
    unfold splitWsAux at ht
    split_ifs at ht with h
    · cases ht
    · rw [List.mem_singleton] at ht
      subst ht
      have hd := congrArg String.data he
      simp only at hd
      exact h (List.reverse_eq_nil_iff.mp hd)
  | cons c rest ih =>
    intro cur t ht he
    unfold splitWsAux at ht
    split_ifs at ht with h1 h2
    · exact ih [] t ht he
    · rcases List.mem_cons.mp ht with h3 | h3
      · subst h3
        have hd := congrArg String.data he
        simp only at hd
        exact h2 (List.reverse_eq_nil_iff.mp hd)
      · exact ih [] t h3 he
    · exact ih (c :: cur) t ht he

theorem mem_splitWs_ne_empty (s : String) (t : String) (h : t ∈ splitWs s) : t ≠ "" :=
  fun he => mem_splitWsAux_ne_empty s.toList [] t h he

theorem tableLookup_mem {k v : String} : ∀ l, tableLookup k l = some v → (k, v) ∈ l := by
  intro l
  induction l with
  | nil => intro h; cases h
  | cons p rest ih =>
    obtain ⟨key, val⟩ := p
    intro h
    unfold tableLookup at h
    split_ifs at h with hk
    · subst hk
      rw [Option.some.injEq] at h
      subst h
      exact List.mem_cons_self _ _
    · exact List.mem_cons_of_mem _ (ih h)

theorem buildGroupedShipments_len_zero_iff (atts : List JSVal) :
    (buildGroupedShipments atts).length = 0 ↔ ∀ a ∈ atts, trackingKey a = none := by
  rw [buildGroupedShipments_eq, List.length_map, List.length_eq_zero]
  constructor
  · intro h a ha
    cases hk : trackingKey a with
    | none => rfl
    | some k =>
      exfalso
      have hmem : k ∈ firstSeenKeys atts := (mem_firstSeenKeys atts k).mpr ⟨a, ha, hk⟩
      rw [h] at hmem
      cases hmem
  · intro h
    by_contra hne
    rcases List.exists_mem_of_ne_nil _ hne with ⟨k, hk⟩
    rcases (mem_firstSeenKeys atts k).mp hk with ⟨a, ha, hta⟩
    rw [h a ha] at hta
    cases hta

theorem trackingKey_none_of_falsy (a : JSVal)
    (h : truthy (getField a "tracking_number") = false) : trackingKey a = none := by
  unfold trackingKey
  split_ifs with h1 h2
  · rfl
  · rfl
  · dsimp only
    rw [jsOr_of_falsy _ h]
    rfl

/-- The error the submission loop produces for a failing shipment,
as a function of the fetch outcome. -/
def failErrorOf (oracle : ShipmentRecord → FetchOutcome) (s : ShipmentRecord) : AppError :=
  match oracle s with
  | .ok _ => ⟨"", none, none⟩
  | .httpErr status statusText bodyText =>
    ⟨"Failed to submit shipment", some 400,
      some ⟨toString status ++ " " ++ statusText, s, bodyText⟩⟩
  | .netErr msg => ⟨msg, none, none⟩

theorem submit_fail_aux (oracle : ShipmentRecord → FetchOutcome) (s : ShipmentRecord)
    (post : List ShipmentRecord) (hs : ∀ b, oracle s ≠ .ok b) :
    ∀ (pre : List ShipmentRecord) (responses : List (JSVal × JSVal)),
      (∀ p ∈ pre, ∃ b, oracle p = .ok b) →
      submitShipments oracle (pre ++ s :: post) responses
        = (pre ++ [s], .error (failErrorOf oracle s)) := by
  intro pre
  induction pre with
  | nil =>
    intro responses _
    rw [List.nil_append]
    unfold submitShipments failErrorOf
    cases ho : oracle s with
    | ok b => exact absurd ho (hs b)
    | httpErr st stx bd => rfl
    | netErr m => rfl
  | cons p rest ih =>
    intro responses hpre
    rcases hpre p (List.mem_cons_self _ _) with ⟨b, hb⟩
    rw [List.cons_append]
    unfold submitShipments
    rw [hb]
    dsimp only
    rw [ih _ (fun q hq => hpre q (List.mem_cons_of_mem _ hq))]
    rfl

/-! Claim theorems. -/

/-- C1: for every input list of attachments, `buildGroupedShipments`
produces exactly one `ShipmentRecord` per distinct tracking number
admitted by the fold (present and truthy, per the
`tracking_number || null` normalization), and the returned records
appear in first-seen key order: the list of their tracking numbers is
exactly the first-seen deduplication of the admitted tracking numbers,
and it has no duplicates. -/
theorem c1_one_record_per_tracking_first_seen (atts : List JSVal) :
    (buildGroupedShipments atts).map (fun r => r.tracking_number)
        = firstSeenDedup (atts.filterMap trackingKey)
      ∧ ((buildGroupedShipments atts).map (fun r => r.tracking_number)).Nodup := by
  have h1 : (buildGroupedShipments atts).map (fun r => r.tracking_number)
      = firstSeenKeys atts := by
    rw [buildGroupedShipments_eq, List.map_map]
    have h2 : ∀ k ∈ firstSeenKeys atts,
        ((fun r => ShipmentRecord.tracking_number r) ∘ fun k => groupRec atts k) k = k :=
      fun k _ => groupRec_tracking atts k
    rw [List.map_congr_left h2]
    simp
  exact ⟨h1, h1 ▸ nodup_firstSeenKeys atts⟩

/-- Attachment A of the backfill example in the spec: tracking number `T1`,
shipping method source `"RES"` (single token: no carrier). -/
def attA : JSVal :=
  .obj [("tracking_number", .str "T1"), ("brightstores_shipping_method", .str "RES")]

/-- Attachment B of the backfill example in the spec: tracking number `T1`,
shipping method source `"FEDEX STD"`. -/
def attB : JSVal :=
  .obj [("tracking_number", .str "T1"), ("brightstores_shipping_method", .str "FEDEX STD")]

/-- C2: in every grouped record each of `source_id`, `carrier_code`
and `shipment_method` equals the first truthy value that the
attachments (in arrival order) resolve for that field — so the first
attachment that successfully sets a field wins, later attachments only
fill fields that are still null, and the three fields are backfilled
independently of each other.  In particular, for attachment A
(`T1`, method source `"RES"`, no carrier) followed by B (`T1`,
`brightstores_shipping_method: "FEDEX STD"`), the merged record has
`carrier_code "FEDEX"` (backfilled from B) and `shipment_method
"Residential"` (kept from A, not overwritten). -/
theorem c2_first_wins_independent_backfill :
    (∀ (atts : List JSVal) (r : ShipmentRecord), r ∈ buildGroupedShipments atts →
      r.source_id = firstTruthy ((groupAtts atts r.tracking_number).map resolveSourceId) ∧
      r.carrier_code = firstTruthy ((groupAtts atts r.tracking_number).map
        (fun a => (resolveShippingMethod a).carrier_code)) ∧
      r.shipment_method = firstTruthy ((groupAtts atts r.tracking_number).map
        (fun a => (resolveShippingMethod a).shipment_method)))
    ∧ buildGroupedShipments [attA, attB]
      = [⟨.str "T1", .null, .str "FEDEX", .str "Residential", []⟩] := by
  constructor
  · intro atts r hr
    rw [buildGroupedShipments_eq] at hr
    rcases List.mem_map.mp hr with ⟨k, hk, rfl⟩
    rw [groupRec_tracking]
    exact ⟨groupRec_source atts k, groupRec_carrier atts k, groupRec_method atts k⟩
  · decide

/-- Witness for C2 at the concrete two-attachment example: the merged
record has as fields the first truthy resolved values of its group. -/
theorem c2_first_wins_independent_backfill_witness :
    ((⟨.str "T1", .null, .str "FEDEX", .str "Residential", []⟩ : ShipmentRecord).carrier_code
        = firstTruthy ((groupAtts [attA, attB]
            ((⟨.str "T1", .null, .str "FEDEX", .str "Residential", []⟩ : ShipmentRecord).tracking_number)).map
          (fun a => (resolveShippingMethod a).carrier_code))) ∧
    ((⟨.str "T1", .null, .str "FEDEX", .str "Residential", []⟩ : ShipmentRecord).shipment_method
        = firstTruthy ((groupAtts [attA, attB]
            ((⟨.str "T1", .null, .str "FEDEX", .str "Residential", []⟩ : ShipmentRecord).tracking_number)).map
          (fun a => (resolveShippingMethod a).shipment_method))) := by
  have h := c2_first_wins_independent_backfill.1 [attA, attB]
    ⟨.str "T1", .null, .str "FEDEX", .str "Residential", []⟩ (by decide)
  exact ⟨h.2.1, h.2.2⟩

/-- First attachment of the C6 witness group. -/
def attW1 : JSVal :=
  .obj [("tracking_number", .str "W6"), ("order_item_id", .num (.fin 3)),
    ("quantity", .num (.fin 2))]

/-- Second attachment of the C6 witness group. -/
def attW2 : JSVal :=
  .obj [("tracking_number", .str "W6"),
    ("order_items", .arr [.obj [("id", .num (.fin 4)), ("quantity", .num (.fin 5))]])]

/-- C6: in every grouped record, `order_items` is the concatenation of
the line items contributed by the attachments of its group, in order —
appended, never replaced — so its length is the sum of the number of
valid items contributed by each attachment of the group. -/
theorem c6_items_appended (atts : List JSVal) (r : ShipmentRecord)
    (hr : r ∈ buildGroupedShipments atts) :
    r.order_items = concatMap buildOrderItems (groupAtts atts r.tracking_number) ∧
    r.order_items.length
      = ((groupAtts atts r.tracking_number).map (fun a => (buildOrderItems a).length)).sum := by
  rw [buildGroupedShipments_eq] at hr
  rcases List.mem_map.mp hr with ⟨k, hk, rfl⟩
  rw [groupRec_tracking]
  refine ⟨groupRec_items atts k, ?_⟩
  rw [groupRec_items atts k, concatMap_length]

/-- Witness for C6 at a concrete two-attachment group: the merged
record holds both contributed items and its length is the sum 1 + 1. -/
theorem c6_items_appended_witness :
    ((⟨.str "W6", .null, .null, .null, [⟨.fin 3, .fin 2⟩, ⟨.fin 4, .fin 5⟩]⟩ : ShipmentRecord).order_items
        = concatMap buildOrderItems (groupAtts [attW1, attW2]
            ((⟨.str "W6", .null, .null, .null, [⟨.fin 3, .fin 2⟩, ⟨.fin 4, .fin 5⟩]⟩ : ShipmentRecord).tracking_number))) ∧
    ((⟨.str "W6", .null, .null, .null, [⟨.fin 3, .fin 2⟩, ⟨.fin 4, .fin 5⟩]⟩ : ShipmentRecord).order_items.length
        = ((groupAtts [attW1, attW2]
            ((⟨.str "W6", .null, .null, .null, [⟨.fin 3, .fin 2⟩, ⟨.fin 4, .fin 5⟩]⟩ : ShipmentRecord).tracking_number)).map
          (fun a => (buildOrderItems a).length)).sum) :=
  c6_items_appended [attW1, attW2]
    ⟨.str "W6", .null, .null, .null, [⟨.fin 3, .fin 2⟩, ⟨.fin 4, .fin 5⟩]⟩ (by decide)

/-- An `order_items` element whose identifier alias `id` is present
and truthy (the number -5) and whose quantity is the finite number 3. -/
def cexItem : JSVal := .obj [("id", .num (.fin (-5))), ("quantity", .num (.fin 3))]

/-- An attachment carrying `cexItem` as its only `order_items`
element. -/
def cexAtt : JSVal := .obj [("order_items", .arr [cexItem])]

/-- C3 counterexample: an item whose identifier is present and truthy
(`id: -5`) and whose quantity is a finite number strictly greater than
zero (`quantity: 3`) is nevertheless dropped by `buildOrderItems`,
because the source additionally requires the identifier to coerce to a
finite number strictly greater than zero — truthiness of the
identifier is not sufficient. -/
theorem c3_counterexample_truthy_id_dropped :
    truthy (getField cexItem "id") = true ∧
    jsNumberIsFinite (itemQuantityNum cexItem) = true ∧
    jnumLeZero (itemQuantityNum cexItem) = false ∧
    buildOrderItems cexAtt = [] := by decide

/-- First attachment of the `T9` example in the spec: quantity 0. -/
def attT9a : JSVal :=
  .obj [("tracking_number", .str "T9"), ("order_item_id", .num (.fin 7)),
    ("quantity", .num (.fin 0))]

/-- Second attachment of the `T9` example in the spec: quantity 3. -/
def attT9b : JSVal :=
  .obj [("tracking_number", .str "T9"), ("order_item_id", .num (.fin 8)),
    ("quantity", .num (.fin 3))]

theorem flat_guard_eq (id q : JNum) :
    (if !jsNumberIsFinite id || jnumLeZero id || !jsNumberIsFinite q || jnumLeZero q
      then ([] : List OrderItem) else [⟨id, q⟩])
    = (if (jsNumberIsFinite id && !jnumLeZero id) && (jsNumberIsFinite q && !jnumLeZero q)
       then [⟨id, q⟩] else []) := by
  cases h1 : jsNumberIsFinite id <;> cases h2 : jnumLeZero id <;>
    cases h3 : jsNumberIsFinite q <;> cases h4 : jnumLeZero q <;> simp [h1, h2, h3, h4]

theorem buildOrderItems_flat (attachment : JSVal)
    (h1 : truthy attachment = true) (h2 : jsTypeofIsObject attachment = true)
    (h3 : jsIsArray (getField attachment "order_items") = false) :
    buildOrderItems attachment
      = (if (jsNumberIsFinite (flatIdNum attachment) && !jnumLeZero (flatIdNum attachment))
            && (jsNumberIsFinite (flatQuantityNum attachment)
                && !jnumLeZero (flatQuantityNum attachment))
         then [⟨flatIdNum attachment, flatQuantityNum attachment⟩] else []) := by
  unfold buildOrderItems
  rw [if_neg (by rw [h1, h2]; simp)]
  cases hv : getField attachment "order_items" with
  | arr xs => rw [hv] at h3; simp [jsIsArray] at h3
  | undefined => exact flat_guard_eq _ _
  | null => exact flat_guard_eq _ _
  | bool b => exact flat_guard_eq _ _
  | num n => exact flat_guard_eq _ _
  | str s => exact flat_guard_eq _ _
  | fn s => exact flat_guard_eq _ _
  | obj fields => exact flat_guard_eq _ _

/-- C3 (amended): `buildOrderItems` never throws and always returns a
list (it is total by construction), and on every attachment shape an
item is retained exactly when its resolved identifier and resolved
quantity (alias chains coerced with `Number`) are each finite and
strictly greater than zero — mere truthiness of the identifier is not
enough.  Over an `order_items` array the retained count is the number
of elements that are truthy objects passing that guard; a legacy flat
attachment yields its single item exactly when its resolved
identifier and quantity pass the same guard; a falsy or non-object
attachment yields no items.  The `T9` example of the spec holds: of
two attachments sharing `T9`, the quantity-0 item is dropped and the
quantity-3 item kept, yielding one line item. -/
theorem c3_amended_retention :
    (∀ (attachment : JSVal) (items : List JSVal),
      truthy attachment = true → jsTypeofIsObject attachment = true →
      getField attachment "order_items" = JSVal.arr items →
      (buildOrderItems attachment).length = items.countP (fun item =>
        truthy item && jsTypeofIsObject item
        && (jsNumberIsFinite (itemIdNum item) && !jnumLeZero (itemIdNum item))
        && (jsNumberIsFinite (itemQuantityNum item) && !jnumLeZero (itemQuantityNum item))))
    ∧ (∀ attachment : JSVal,
        truthy attachment = true → jsTypeofIsObject attachment = true →
        jsIsArray (getField attachment "order_items") = false →
        buildOrderItems attachment
          = (if (jsNumberIsFinite (flatIdNum attachment) && !jnumLeZero (flatIdNum attachment))
                && (jsNumberIsFinite (flatQuantityNum attachment)
                    && !jnumLeZero (flatQuantityNum attachment))
             then [⟨flatIdNum attachment, flatQuantityNum attachment⟩] else []))
    ∧ (∀ attachment : JSVal, (!truthy attachment || !jsTypeofIsObject attachment) = true →
        buildOrderItems attachment = [])
    ∧ buildGroupedShipments [attT9a, attT9b]
      = [⟨.str "T9", .null, .null, .null, [⟨.fin 8, .fin 3⟩]⟩] := by
  refine ⟨?_, ?_, ?_, by decide⟩
  · intro attachment items h1 h2 h3
    unfold buildOrderItems
    rw [h3]
    simp only [h1, h2]
    rw [if_neg (by simp)]
    rw [length_filterMap_countP]
    exact List.countP_congr (fun a _ => by rw [mapOrderItem_isSome a])
  · exact buildOrderItems_flat
  · intro a h
    unfold buildOrderItems
    rw [if_pos h]

/-- Witness for the amended C3 at concrete attachments: an array
attachment with one valid and one invalid element retains a single
item; the flat `T9` quantity-3 attachment yields its single item; a
`null` attachment yields no items. -/
theorem c3_amended_retention_witness :
    ((buildOrderItems (JSVal.obj [("order_items", JSVal.arr [cexItem,
        JSVal.obj [("id", .num (.fin 4)), ("quantity", .num (.fin 2))]])])).length
      = [cexItem, JSVal.obj [("id", .num (.fin 4)), ("quantity", .num (.fin 2))]].countP
          (fun item => truthy item && jsTypeofIsObject item
            && (jsNumberIsFinite (itemIdNum item) && !jnumLeZero (itemIdNum item))
            && (jsNumberIsFinite (itemQuantityNum item) && !jnumLeZero (itemQuantityNum item)))) ∧
    (buildOrderItems attT9b
      = (if (jsNumberIsFinite (flatIdNum attT9b) && !jnumLeZero (flatIdNum attT9b))
            && (jsNumberIsFinite (flatQuantityNum attT9b)
                && !jnumLeZero (flatQuantityNum attT9b))
         then [⟨flatIdNum attT9b, flatQuantityNum attT9b⟩] else [])) ∧
    buildOrderItems JSVal.null = [] :=
  ⟨c3_amended_retention.1
    (JSVal.obj [("order_items", JSVal.arr [cexItem,
      JSVal.obj [("id", .num (.fin 4)), ("quantity", .num (.fin 2))]])])
    [cexItem, JSVal.obj [("id", .num (.fin 4)), ("quantity", .num (.fin 2))]]
    rfl rfl rfl,
   c3_amended_retention.2.1 attT9b rfl rfl rfl,
   c3_amended_retention.2.2.1 JSVal.null rfl⟩

/-- C4: `parseShippingMethod` is total on every modeled input (it
cannot throw); on a string with at least two whitespace-separated
tokens the first token becomes `carrier_code` and the remaining
tokens, joined by single spaces, become the method-lookup input; on a
single-token, empty, or whitespace-only string — and on `null` — the
carrier code is `null`. -/
theorem c4_carrier_token_split :
    (∀ s : String,
      (parseShippingMethod (.str s)).carrier_code
        = (match splitWs (jsTrim s) with
           | t :: _ :: _ => JSVal.str t
           | _ => JSVal.null) ∧
      (parseShippingMethod (.str s)).shipment_method
        = (match splitWs (jsTrim s) with
           | [] => JSVal.null
           | [t] => jsOr (normalizeMethod t) .null
           | _ :: rest => jsOr (normalizeMethod (joinSpace rest)) .null))
    ∧ parseShippingMethod .null = ⟨.null, .null⟩
    ∧ parseShippingMethod (.str "   ") = ⟨.null, .null⟩ := by
  refine ⟨?_, by decide, by decide⟩
  intro s
  by_cases hs : s = ""
  · subst hs
    exact ⟨by decide, by decide⟩
  · have ht : truthy (JSVal.str s) = true := by simp [truthy, hs]
    unfold parseShippingMethod
    rw [if_neg (by rw [ht]; exact fun hc => Bool.true_eq_false ▸ hc ▸ rfl)]
    simp only [jsToString]
    by_cases h2 : jsTrim s = ""
    · rw [if_pos h2]
      refine ⟨?_, ?_⟩ <;> (rw [h2]; decide)
    · rw [if_neg h2]
      cases hsp : splitWs (jsTrim s) with
      | nil =>
        exact ⟨by decide, by decide⟩
      | cons t rest =>
        cases rest with
        | nil =>
          exact ⟨rfl, rfl⟩
        | cons u rest2 =>
          have hmem : t ∈ splitWs (jsTrim s) := by
            rw [hsp]; exact List.mem_cons_self _ _
          have hne := mem_splitWs_ne_empty _ t hmem
          refine ⟨?_, rfl⟩
          show jsStrOrNull t = JSVal.str t
          unfold jsStrOrNull
          rw [if_neg hne]

theorem jsOr_undefined_left (b : JSVal) : jsOr .undefined b = b := rfl

theorem protoGet_truthy (s : String) (m : JSVal) (hp : protoGet s = some m) :
    truthy m = true := by
  unfold protoGet at hp
  cases hf : objectProtoMembers.find? (fun p => p.1 == s) with
  | none => rw [hf] at hp; cases hp
  | some p =>
    rw [hf] at hp
    have hm : m = p.2 := by simpa using hp.symm
    subst hm
    have hmem := List.mem_of_find?_eq_some hf
    simp only [objectProtoMembers, List.mem_cons, List.not_mem_nil, or_false] at hmem
    rcases hmem with rfl | rfl | rfl | rfl | rfl | rfl | rfl | rfl | rfl | rfl | rfl | rfl <;>
      decide

/-- C5 counterexample: the label `toString` hits no entry of the
normalization table — neither case-sensitively nor after uppercasing —
yet it is not passed through unchanged: the bracket lookup reaches the
inherited `Object.prototype.toString`, a truthy member that the
`||`-chain of line 82 selects, so the parsed shipment method is the
inherited native function, not the raw label. -/
theorem c5_counterexample_inherited_member :
    tableLookup "toString" shipmentMethodMapping = none ∧
    tableLookup (upperStr "toString") shipmentMethodMapping = none ∧
    normalizeMethod "toString" = .fn "toString" ∧
    normalizeMethod "toString" ≠ .str "toString" ∧
    parseShippingMethod (.str "UPS toString") = ⟨.str "UPS", .fn "toString"⟩ := by decide

/-- C5 (amended): for every isolated method label that does not name
an `Object.prototype` member (in raw or uppercased form), the
two-stage lookup collapses to a single case-insensitive lookup — the
label resolves to the table image of its uppercasing when that is a
table key, in any input case (`"GRND"`/`"grnd"` give `"Ground"`,
`"2DAY"`/`"2dAy"` give `"2-Day Air"`), and otherwise passes through
unchanged; but a label that misses the table while naming an inherited
`Object.prototype` member resolves to that truthy inherited member
instead of passing through. -/
theorem c5_amended_method_normalization :
    (∀ s : String, protoGet s = none → protoGet (upperStr s) = none →
      normalizeMethod s
        = (match tableLookup (upperStr s) shipmentMethodMapping with
           | some v => JSVal.str v
           | none => JSVal.str s))
    ∧ (∀ (s : String) (m : JSVal), tableLookup s shipmentMethodMapping = none →
        protoGet s = some m → normalizeMethod s = m)
    ∧ normalizeMethod "GRND" = .str "Ground" ∧ normalizeMethod "grnd" = .str "Ground"
    ∧ normalizeMethod "2DAY" = .str "2-Day Air" ∧ normalizeMethod "2dAy" = .str "2-Day Air"
    ∧ parseShippingMethod (.str "UPS grnd") = ⟨.str "UPS", .str "Ground"⟩
    ∧ parseShippingMethod (.str "FEDEX SuperSaver") = ⟨.str "FEDEX", .str "SuperSaver"⟩
    ∧ parseShippingMethod (.str "RES") = ⟨.null, .str "Residential"⟩
    ∧ parseShippingMethod (.str "UPS toString") = ⟨.str "UPS", .fn "toString"⟩ := by
  refine ⟨?_, ?_, by decide, by decide, by decide, by decide, by decide, by decide,
    by decide, by decide⟩
  · intro s hp1 hp2
    unfold normalizeMethod
    cases hl : tableLookup s shipmentMethodMapping with
    | some v =>
      have hk := tableLookup_mem shipmentMethodMapping hl
      simp only [shipmentMethodMapping, List.mem_cons, List.mem_singleton,
        Prod.mk.injEq, List.not_mem_nil, or_false] at hk
      rcases hk with ⟨rfl, rfl⟩ | ⟨rfl, rfl⟩ | ⟨rfl, rfl⟩ | ⟨rfl, rfl⟩
        | ⟨rfl, rfl⟩ | ⟨rfl, rfl⟩ | ⟨rfl, rfl⟩ <;> decide
    | none =>
      have hg1 : tableGet s shipmentMethodMapping = .undefined := by
        unfold tableGet
        rw [hl, hp1]
      rw [hg1, jsOr_undefined_left]
      cases hu : tableLookup (upperStr s) shipmentMethodMapping with
      | some v =>
        have hg2 : tableGet (upperStr s) shipmentMethodMapping = .str v := by
          unfold tableGet
          rw [hu]
        rw [hg2]
        have hk := tableLookup_mem shipmentMethodMapping hu
        simp only [shipmentMethodMapping, List.mem_cons, List.mem_singleton,
          Prod.mk.injEq, List.not_mem_nil, or_false] at hk
        rcases hk with ⟨hks, rfl⟩ | ⟨hks, rfl⟩ | ⟨hks, rfl⟩ | ⟨hks, rfl⟩
          | ⟨hks, rfl⟩ | ⟨hks, rfl⟩ | ⟨hks, rfl⟩ <;>
          exact jsOr_of_truthy _ (by decide)
      | none =>
        have hg2 : tableGet (upperStr s) shipmentMethodMapping = .undefined := by
          unfold tableGet
          rw [hu, hp2]
        rw [hg2, jsOr_undefined_left]
  · intro s m hl hp
    unfold normalizeMethod
    have hg : tableGet s shipmentMethodMapping = m := by
      unfold tableGet
      rw [hl, hp]
    rw [hg, jsOr_of_truthy _ (protoGet_truthy s m hp)]

/-- Witness for the amended C5: the non-colliding unknown label
`SuperSaver` passes through unchanged, and the colliding label
`valueOf` selects the inherited member. -/
theorem c5_amended_method_normalization_witness :
    normalizeMethod "SuperSaver"
        = (match tableLookup (upperStr "SuperSaver") shipmentMethodMapping with
           | some v => JSVal.str v
           | none => JSVal.str "SuperSaver") ∧
    normalizeMethod "valueOf" = .fn "valueOf" :=
  ⟨c5_amended_method_normalization.1 "SuperSaver" (by decide) (by decide),
   c5_amended_method_normalization.2.1 "valueOf" (.fn "valueOf") (by decide) (by decide)⟩

/-- C7: for every request body, the validation gate rejects with the
400 invalid-input error exactly when the body is falsy or the
`mail_attachments` field fails the `typeof` object test (arrays and
`null` pass it), rejects with the 400 missing-tracking-number error
exactly when every attachment of the (possibly wrapped) list lacks an
admissible tracking number, and otherwise accepts — so an individual
malformed attachment or item never fails the request on its own. -/
theorem c7_gate_rejections (data : JSVal) :
    processGate data
      = (if (!truthy data || !jsTypeofIsObject (getField data "mail_attachments")) then
           Except.error invalidInputError
         else if (toAttachmentList (getField data "mail_attachments")).all
             (fun a => (trackingKey a).isNone) then
           Except.error missingTrackingError
         else
           Except.ok (buildGroupedShipments (toAttachmentList (getField data "mail_attachments"))))
      ∧ invalidInputError.statusCode = some 400
      ∧ missingTrackingError.statusCode = some 400 := by
  refine ⟨?_, rfl, rfl⟩
  unfold processGate
  by_cases h1 : (!truthy data || !jsTypeofIsObject (getField data "mail_attachments")) = true
  · rw [if_pos h1, if_pos h1]
  · rw [if_neg h1, if_neg h1]
    by_cases h2 : (buildGroupedShipments (toAttachmentList (getField data "mail_attachments"))).length = 0
    · have hall : ((toAttachmentList (getField data "mail_attachments")).all
          (fun a => (trackingKey a).isNone)) = true := by
        rw [List.all_eq_true]
        intro a ha
        rw [Option.isNone_iff_eq_none]
        exact (buildGroupedShipments_len_zero_iff _).mp h2 a ha
      rw [if_pos h2, if_pos hall]
    · have hall : ¬(((toAttachmentList (getField data "mail_attachments")).all
          (fun a => (trackingKey a).isNone)) = true) := by
        intro hc
        apply h2
        rw [buildGroupedShipments_len_zero_iff]
        intro a ha
        rw [← Option.isNone_iff_eq_none]
        exact List.all_eq_true.mp hc a ha
      rw [if_neg h2, if_neg hall]

/-- C8: shipments are submitted one at a time in list order and a
failing submission aborts the batch: when every shipment before `s`
succeeds and the fetch for `s` does not return ok, exactly the shipments up
to and including `s` are submitted (those after `s` are never
reached), the loop yields the failure error instead of any success
payload, an upstream non-2xx rejection carries `statusCode` 400 with
message "Failed to submit shipment", a transport failure carries no
`statusCode` so the middleware defaults to 500, and every serialized
failure response has `success: false` and no `responses` field. -/
theorem c8_fail_fast (oracle : ShipmentRecord → FetchOutcome) (pre : List ShipmentRecord)
    (s : ShipmentRecord) (post : List ShipmentRecord)
    (hpre : ∀ p ∈ pre, ∃ b, oracle p = .ok b)
    (hs : ∀ b, oracle s ≠ .ok b) :
    (submitShipments oracle (pre ++ s :: post) []).1 = pre ++ [s] ∧
    (submitShipments oracle (pre ++ s :: post) []).2 = .error (failErrorOf oracle s) ∧
    (∀ st stx bd, oracle s = .httpErr st stx bd →
      (failErrorOf oracle s).statusCode = some 400 ∧
      (failErrorOf oracle s).message = "Failed to submit shipment" ∧
      ∀ rid, (errorResponse rid (failErrorOf oracle s)).status = 400) ∧
    (∀ m, oracle s = .netErr m →
      (failErrorOf oracle s).statusCode = none ∧
      ∀ rid, (errorResponse rid (failErrorOf oracle s)).status = 500) ∧
    (∀ (rid : String) (e : AppError),
      (errorResponse rid e).responses = none ∧ (errorResponse rid e).success = false) := by
  have haux := submit_fail_aux oracle s post hs pre [] hpre
  refine ⟨by rw [haux], by rw [haux], ?_, ?_, ?_⟩
  · intro st stx bd ho
    unfold failErrorOf
    rw [ho]
    exact ⟨rfl, rfl, fun rid => rfl⟩
  · intro m ho
    unfold failErrorOf
    rw [ho]
    exact ⟨rfl, fun rid => rfl⟩
  · intro rid e
    exact ⟨rfl, rfl⟩

/-- First shipment of the C8 witness batch. -/
def shipS1 : ShipmentRecord := ⟨.str "S1", .null, .null, .null, []⟩

/-- Second shipment of the C8 witness batch (its submission fails). -/
def shipS2 : ShipmentRecord := ⟨.str "S2", .null, .null, .null, []⟩

/-- Third shipment of the C8 witness batch (never submitted). -/
def shipS3 : ShipmentRecord := ⟨.str "S3", .null, .null, .null, []⟩

/-- Fetch oracle of the C8 witness: rejects `S2`, accepts the rest. -/
def oracleW : ShipmentRecord → FetchOutcome := fun r =>
  if r.tracking_number = .str "S2" then .httpErr 422 "Unprocessable Entity" "rejected"
  else .ok .null

/-- Witness for C8: with three shipments of which the second is
rejected upstream, exactly the first two are submitted and the loop
ends in the 400 failure. -/
theorem c8_fail_fast_witness :
    (submitShipments oracleW ([shipS1] ++ shipS2 :: [shipS3]) []).1 = [shipS1] ++ [shipS2] ∧
    (submitShipments oracleW ([shipS1] ++ shipS2 :: [shipS3]) []).2
      = .error (failErrorOf oracleW shipS2) := by
  have h := c8_fail_fast oracleW [shipS1] shipS2 [shipS3]
    (by
      intro p hp
      rw [List.mem_singleton] at hp
      subst hp
      exact ⟨.null, by decide⟩)
    (by
      intro b hc
      rw [show oracleW shipS2 = .httpErr 422 "Unprocessable Entity" "rejected" from by decide] at hc
      exact FetchOutcome.noConfusion hc)
  exact ⟨h.1, h.2.1⟩

/-- C9: an attachment whose `tracking_number` field is present but
falsy (empty string, 0, `false`) — or absent — is skipped by the
grouping fold exactly as if it carried no tracking number: the fold
state is unchanged; consequently a request whose attachments all carry
only falsy tracking numbers passes the type gate but is rejected with
the 400 missing-tracking-number error; concretely, attachments with
tracking numbers `""`, `0` and `false` group to no shipment at all. -/
theorem c9_falsy_tracking_skipped :
    (∀ (g : List (JSVal × ShipmentRecord)) (a : JSVal),
      truthy (getField a "tracking_number") = false → groupStep g a = g) ∧
    (∀ (oracle : ShipmentRecord → FetchOutcome) (rid : String) (data : JSVal),
      truthy data = true →
      jsTypeofIsObject (getField data "mail_attachments") = true →
      (∀ a ∈ toAttachmentList (getField data "mail_attachments"),
        truthy (getField a "tracking_number") = false) →
      handleRequest oracle rid data = errorResponse rid missingTrackingError) ∧
    buildGroupedShipments
      [.obj [("tracking_number", .str "")], .obj [("tracking_number", .num (.fin 0))],
       .obj [("tracking_number", .bool false)]] = [] := by
  refine ⟨?_, ?_, by decide⟩
  · intro g a h
    unfold groupStep
    rw [trackingKey_none_of_falsy a h]
  · intro oracle rid data ht1 ht2 hall
    have hnot : ¬((!truthy data || !jsTypeofIsObject (getField data "mail_attachments")) = true) := by
      rw [ht1, ht2]
      simp
    have h0 : (buildGroupedShipments (toAttachmentList (getField data "mail_attachments"))).length = 0 :=
      (buildGroupedShipments_len_zero_iff _).mpr
        (fun a ha => trackingKey_none_of_falsy a (hall a ha))
    unfold handleRequest processGate
    rw [if_neg hnot, if_pos h0]

/-- Witness for C9: the fold skip at a concrete falsy-tracking
attachment, and the 400 missing-tracking rejection of a request whose
only attachment has tracking number 0. -/
theorem c9_falsy_tracking_skipped_witness :
    groupStep [] (.obj [("tracking_number", .str "")]) = [] ∧
    handleRequest (fun _ => .ok .null) "rid"
        (.obj [("mail_attachments", .arr [.obj [("tracking_number", .num (.fin 0))]])])
      = errorResponse "rid" missingTrackingError :=
  ⟨c9_falsy_tracking_skipped.1 [] _ (by decide),
   c9_falsy_tracking_skipped.2.1 (fun _ => .ok .null) "rid" _ (by decide) (by decide) (by decide)⟩

/-- C10: a body whose `mail_attachments` is `null` passes the
`typeof` gate (`typeof null` is `"object"`), is wrapped into the
one-element list `[null]`, whose sole attachment the grouper skips, so
the request is rejected with the 400 missing-tracking-number error —
not the invalid-input error. -/
theorem c10_null_mail_attachments :
    jsTypeofIsObject (getField (JSVal.obj [("mail_attachments", JSVal.null)]) "mail_attachments")
        = true ∧
    toAttachmentList (getField (JSVal.obj [("mail_attachments", JSVal.null)]) "mail_attachments")
        = [JSVal.null] ∧
    buildGroupedShipments [JSVal.null] = [] ∧
    processGate (JSVal.obj [("mail_attachments", JSVal.null)])
        = Except.error missingTrackingError ∧
    missingTrackingError.statusCode = some 400 ∧
    missingTrackingError.message ≠ invalidInputError.message := by decide

end JCharles
